import Mathlib

/-!
Shallow embedding of `Session5_DesignYourOwnTrigger.ipynb` (OpenData_Unige).

The notebook defines a histogram set (`get_histograms`), an event-selection
loop (`analyse_events`) and a final-results cell computing a significance and
a rate-reduction verdict.  Python floats are modelled by `ℝ`; histograms are
modelled by the chronological list of values filled into them (bin edges are
fixed at construction and play no role in the claims); the labelled `cutflow`
histogram is modelled by the list of labels filled.  Python exceptions
(`ValueError` from `math.sqrt`, `ZeroDivisionError` from float division) are
modelled with `Except`.
-/

noncomputable section

open Classical

/-- `GeV = 1e-3`: the notebook's MeV-to-GeV conversion factor. -/
def GeV : ℝ := 1e-3

/-- `fb = 1e-3`: the notebook's cross-section unit conversion factor. -/
def fb : ℝ := 1e-3

/-- One event record of the `mini` tree: the fields `analyse_events` reads.
Per-particle arrays are lists indexed from 0; the loop assumes well-formed
input (`lep_n ≤ lep_pt.length` and so on), out-of-range reads default to 0. -/
structure Event where
  lep_n : ℕ
  lep_pt : List ℝ
  lep_phi : List ℝ
  met_et : ℝ
  met_phi : ℝ
  jet_n : ℕ
  jet_pt : List ℝ
  jet_eta : List ℝ
  jet_phi : List ℝ
  jet_E : List ℝ

/-- The histogram accumulator set built by `get_histograms`: each histogram is
represented by the list of values filled into it, in fill order. -/
structure Histos where
  met_et : List ℝ
  jet_n : List ℕ
  jet0_pt : List ℝ
  jet1_pt : List ℝ
  jet0_eta : List ℝ
  jet1_eta : List ℝ
  jet_dphi : List ℝ
  jet_deta : List ℝ
  dijet_m : List ℝ
  cutflow : List String

/-- `get_histograms()`: a fresh histogram set; every histogram starts empty. -/
def get_histograms : Histos :=
  { met_et := [], jet_n := [], jet0_pt := [], jet1_pt := [], jet0_eta := []
    jet1_eta := [], jet_dphi := [], jet_deta := [], dijet_m := [], cutflow := [] }

/-- The reset loop at the top of `analyse_events`: every histogram in the set
is cleared (`hist.Reset()`), leaving it with no entries. -/
def resetAll (_hist_list : Histos) : Histos := get_histograms

/-- The lepton loop of `analyse_events`: starting from `met_x = met_y = 0`,
for `ii in range(event.lep_n)` add `lep_pt[ii]*cos(lep_phi[ii])` to `met_x`
and `lep_pt[ii]*sin(lep_phi[ii])` to `met_y`. -/
def lepSum (event : Event) : ℝ × ℝ :=
  (List.range event.lep_n).foldl
    (fun m ii =>
      (m.1 + event.lep_pt.getD ii 0 * Real.cos (event.lep_phi.getD ii 0),
       m.2 + event.lep_pt.getD ii 0 * Real.sin (event.lep_phi.getD ii 0)))
    (0, 0)

/-- `met_et_GeV` as computed per event in `analyse_events`: the lepton sums
plus the reported MET vector, combined magnitude, times `GeV`. -/
def eff_met (event : Event) : ℝ :=
  let met_x := (lepSum event).1 + event.met_et * Real.cos event.met_phi
  let met_y := (lepSum event).2 + event.met_et * Real.sin event.met_phi
  Real.sqrt (met_x * met_x + met_y * met_y) * GeV

/-- Modelled from the spec: the effective missing transverse energy is "the
vector sum, in the transverse plane, of all lepton momentum vectors (each
lepton contributes `(pt·cos φ, pt·sin φ)`) plus the event's reported
missing-transverse-energy vector `(met·cos φ_met, met·sin φ_met)`", whose
"combined magnitude, converted from the source energy unit to GeV (factor
1e-3)", is the result. -/
def eff_met_spec (event : Event) : ℝ :=
  let vx := (∑ i in Finset.range event.lep_n,
      event.lep_pt.getD i 0 * Real.cos (event.lep_phi.getD i 0))
    + event.met_et * Real.cos event.met_phi
  let vy := (∑ i in Finset.range event.lep_n,
      event.lep_pt.getD i 0 * Real.sin (event.lep_phi.getD i 0))
    + event.met_et * Real.sin event.met_phi
  Real.sqrt (vx ^ 2 + vy ^ 2) * 1e-3

/-- `TLorentzVector.Pt()` after `SetPtEtaPhiE(pt, eta, phi, E)` (external ROOT
library): `px = pt·cos φ`, `py = pt·sin φ`, and `Pt = sqrt (px² + py²)`. -/
def tlv_Pt (pt phi : ℝ) : ℝ :=
  Real.sqrt ((pt * Real.cos phi) ^ 2 + (pt * Real.sin phi) ^ 2)

/-- `TLorentzVector.Eta()` after `SetPtEtaPhiE(pt, eta, phi, E)` (external
ROOT library): pseudorapidity recomputed from the momentum components. -/
def tlv_Eta (pt eta phi : ℝ) : ℝ :=
  let px := pt * Real.cos phi
  let py := pt * Real.sin phi
  let pz := pt * Real.sinh eta
  let cosTheta := pz / Real.sqrt (px ^ 2 + py ^ 2 + pz ^ 2);
  -0.5 * Real.log ((1 - cosTheta) / (1 + cosTheta))

/-- `met_thresh = 200`, bound inside `analyse_events`; the function takes no
parameter that changes it. -/
def met_thresh : ℝ := 200

/-- The body of the event loop of `analyse_events`, acting on the running
`(passed_cnt, hist_list)` state: fill `cutflow` "total" and `met_et`
unconditionally; `continue` if the effective MET is below `met_thresh`;
otherwise fill the threshold cutflow label (the f-string `"200GeVMET"`), fill
`jet_n`, fill the four jet-kinematic histograms when `jet_n ≥ 2`, and
increment `passed_cnt`. -/
def stepEvent (st : ℕ × Histos) (event : Event) : ℕ × Histos :=
  let met_et_GeV := eff_met event
  let h := st.2
  let h := { h with cutflow := h.cutflow ++ ["total"],
                    met_et := h.met_et ++ [met_et_GeV] }
  if met_et_GeV < met_thresh then (st.1, h)
  else
    let h := { h with cutflow := h.cutflow ++ ["200GeVMET"],
                      jet_n := h.jet_n ++ [event.jet_n] }
    let h :=
      if 2 ≤ event.jet_n then
        { h with
          jet0_pt := h.jet0_pt ++
            [tlv_Pt (event.jet_pt.getD 0 0) (event.jet_phi.getD 0 0) * GeV],
          jet1_pt := h.jet1_pt ++
            [tlv_Pt (event.jet_pt.getD 1 0) (event.jet_phi.getD 1 0) * GeV],
          jet0_eta := h.jet0_eta ++
            [tlv_Eta (event.jet_pt.getD 0 0) (event.jet_eta.getD 0 0)
              (event.jet_phi.getD 0 0)],
          jet1_eta := h.jet1_eta ++
            [tlv_Eta (event.jet_pt.getD 1 0) (event.jet_eta.getD 1 0)
              (event.jet_phi.getD 1 0)] }
      else h
    (st.1 + 1, h)

/-- The `for event in tree` loop of `analyse_events`, with the
`if evt_cnt >= max_events: break` check at the top of each iteration and
`evt_cnt += 1` before the event is processed. -/
def analyse_loop (max_events : ℤ) : ℤ → ℕ × Histos → List Event → ℕ × Histos
  | _, st, [] => st
  | evt_cnt, st, event :: rest =>
      if evt_cnt ≥ max_events then st
      else analyse_loop max_events (evt_cnt + 1) (stepEvent st event) rest

/-- `analyse_events(tree, hist_list, max_events = -1)`: reset every histogram,
then run the event loop from `passed_cnt = 0`, `evt_cnt = 0`.  Returns the
passed count together with the final histogram contents (the notebook mutates
`hist_list` in place and returns only `passed_cnt`). -/
def analyse_events (tree : List Event) (hist_list : Histos)
    (max_events : ℤ := -1) : ℕ × Histos :=
  analyse_loop max_events 0 (0, resetAll hist_list) tree

/-- Python `math.sqrt`: raises `ValueError` on a negative argument. -/
def pysqrt (x : ℝ) : Except String ℝ :=
  if x < 0 then .error "ValueError" else .ok (Real.sqrt x)

/-- Python float division: raises `ZeroDivisionError` when the divisor is 0. -/
def pydiv (a b : ℝ) : Except String ℝ :=
  if b = 0 then .error "ZeroDivisionError" else .ok (a / b)

/-- The significance expression of the Final Results cell:
`signal*lumi_factor/math.sqrt(background*lumi_factor)` with Python's error
semantics. -/
def significance (signal background lumi_factor : ℝ) : Except String ℝ :=
  match pysqrt (background * lumi_factor) with
  | .error e => .error e
  | .ok s => pydiv (signal * lumi_factor) s

/-- `reduction = background/51336` from the Final Results cell. -/
def reduction (background : ℝ) : ℝ := background / 51336

/-- The affordability verdict of the Final Results cell: the
"we can afford this trigger" branch is taken iff not `reduction > 0.14`. -/
def affordable (background : ℝ) : Prop := ¬ (reduction background > 0.14)

/-- The spec's synthetic cancellation event: one lepton with pt = 100 GeV
(100000 in the tree's MeV unit) at φ = π, and MET = 100 GeV at φ = 0. -/
def cancelEv : Event :=
  { lep_n := 1, lep_pt := [100000], lep_phi := [Real.pi], met_et := 100000,
    met_phi := 0, jet_n := 0, jet_pt := [], jet_eta := [], jet_phi := [],
    jet_E := [] }

/-- The spec's other synthetic event: zero leptons, MET = 250 GeV
(250000 MeV) at azimuth 0, no jets. -/
def ev250 : Event :=
  { lep_n := 0, lep_pt := [], lep_phi := [], met_et := 250000, met_phi := 0,
    jet_n := 0, jet_pt := [], jet_eta := [], jet_phi := [], jet_E := [] }

lemma foldl_range_pair (f g : ℕ → ℝ) :
    ∀ (n : ℕ) (a b : ℝ),
      (List.range n).foldl (fun m i => (m.1 + f i, m.2 + g i)) (a, b)
        = (a + ∑ i in Finset.range n, f i, b + ∑ i in Finset.range n, g i) := by
  intro n
  induction n with
  | zero => intro a b; simp
  | succ n ih =>
      intro a b
      rw [List.range_succ, List.foldl_append]
      rw [ih a b]
      simp [Finset.sum_range_succ]
      constructor <;> ring

lemma lepSum_eq (ev : Event) :
    lepSum ev
      = (∑ i in Finset.range ev.lep_n,
           ev.lep_pt.getD i 0 * Real.cos (ev.lep_phi.getD i 0),
         ∑ i in Finset.range ev.lep_n,
           ev.lep_pt.getD i 0 * Real.sin (ev.lep_phi.getD i 0)) := by
  unfold lepSum
  rw [foldl_range_pair]
  simp

lemma eff_met_eq_spec (ev : Event) : eff_met ev = eff_met_spec ev := by
  have h : ∀ x y : ℝ, x * x + y * y = x ^ 2 + y ^ 2 := fun x y => by ring
  simp only [eff_met, eff_met_spec, GeV, lepSum_eq]
  rw [h]

lemma eff_met_zero_lep (ev : Event) (h : ev.lep_n = 0) :
    eff_met ev = |ev.met_et| * GeV := by
  unfold eff_met lepSum
  rw [h]
  simp only [List.range_zero, List.foldl_nil, zero_add]
  have key : ev.met_et * Real.cos ev.met_phi * (ev.met_et * Real.cos ev.met_phi)
      + ev.met_et * Real.sin ev.met_phi * (ev.met_et * Real.sin ev.met_phi)
      = ev.met_et ^ 2 * (Real.cos ev.met_phi ^ 2 + Real.sin ev.met_phi ^ 2) := by
    ring
  rw [key, Real.cos_sq_add_sin_sq, mul_one, Real.sqrt_sq_eq_abs]

lemma eff_met_cancelEv : eff_met cancelEv = 0 := by
  have hr : List.range 1 = [0] := rfl
  unfold eff_met lepSum cancelEv
  rw [hr]
  norm_num [Real.cos_pi, Real.sin_pi, Real.sqrt_zero]

lemma eff_met_ev250 : eff_met ev250 = 250 := by
  rw [eff_met_zero_lep ev250 rfl]
  norm_num [ev250, GeV]

lemma stepEvent_below (p : ℕ) (s : Histos) (ev : Event)
    (h : eff_met ev < met_thresh) :
    stepEvent (p, s) ev
      = (p, { s with cutflow := s.cutflow ++ ["total"],
                     met_et := s.met_et ++ [eff_met ev] }) := by
  simp only [stepEvent]
  rw [if_pos h]

lemma stepEvent_pass_lt2 (p : ℕ) (s : Histos) (ev : Event)
    (hmet : met_thresh ≤ eff_met ev) (hjet : ev.jet_n < 2) :
    stepEvent (p, s) ev
      = (p + 1, { s with cutflow := s.cutflow ++ ["total"] ++ ["200GeVMET"],
                         met_et := s.met_et ++ [eff_met ev],
                         jet_n := s.jet_n ++ [ev.jet_n] }) := by
  simp only [stepEvent]
  rw [if_neg (not_lt.mpr hmet), if_neg (not_le.mpr hjet)]

lemma stepEvent_passes (p : ℕ) (s : Histos) (ev : Event)
    (hmet : met_thresh ≤ eff_met ev) :
    (stepEvent (p, s) ev).1 = p + 1 := by
  simp only [stepEvent]
  rw [if_neg (not_lt.mpr hmet)]

lemma stepEvent_unfilled (st : ℕ × Histos) (ev : Event) :
    (stepEvent st ev).2.jet_dphi = st.2.jet_dphi
    ∧ (stepEvent st ev).2.jet_deta = st.2.jet_deta
    ∧ (stepEvent st ev).2.dijet_m = st.2.dijet_m := by
  simp only [stepEvent]
  split_ifs <;> exact ⟨rfl, rfl, rfl⟩

lemma analyse_loop_unfilled (max_events : ℤ) :
    ∀ (tree : List Event) (evt_cnt : ℤ) (st : ℕ × Histos),
      (analyse_loop max_events evt_cnt st tree).2.jet_dphi = st.2.jet_dphi
      ∧ (analyse_loop max_events evt_cnt st tree).2.jet_deta = st.2.jet_deta
      ∧ (analyse_loop max_events evt_cnt st tree).2.dijet_m = st.2.dijet_m := by
  intro tree
  induction tree with
  | nil => intro c st; exact ⟨rfl, rfl, rfl⟩
  | cons e rest ih =>
      intro c st
      simp only [analyse_loop]
      split_ifs with h
      · exact ⟨rfl, rfl, rfl⟩
      · obtain ⟨h1, h2, h3⟩ := ih (c + 1) (stepEvent st e)
        obtain ⟨g1, g2, g3⟩ := stepEvent_unfilled st e
        exact ⟨h1.trans g1, h2.trans g2, h3.trans g3⟩

/-- C1: the effective missing transverse energy computed per event by
`analyse_events` equals the magnitude of the transverse-plane vector sum of
all lepton momentum vectors plus the reported MET vector, times 1e-3; for an
event with zero leptons it equals the raw MET magnitude times 1e-3; and on
the synthetic cancellation event (one lepton, pt 100 GeV at φ = π, MET
100 GeV at φ = 0) the two vectors cancel, the effective MET is exactly 0, and
the event is not counted as passed. -/
theorem C1_effective_met :
    (∀ ev : Event, eff_met ev = eff_met_spec ev)
    ∧ (∀ ev : Event, ev.lep_n = 0 → eff_met ev = |ev.met_et| * GeV)
    ∧ eff_met cancelEv = 0
    ∧ (stepEvent (0, get_histograms) cancelEv).1 = 0 := by
  refine ⟨eff_met_eq_spec, eff_met_zero_lep, eff_met_cancelEv, ?_⟩
  have h : eff_met cancelEv < met_thresh := by
    rw [eff_met_cancelEv]; norm_num [met_thresh]
  rw [stepEvent_below 0 get_histograms cancelEv h]

/-- Witness for C1 at the zero-lepton event `ev250`. -/
theorem C1_effective_met_witness :
    ev250.lep_n = 0 ∧ eff_met ev250 = |ev250.met_et| * GeV :=
  ⟨rfl, C1_effective_met.2.1 ev250 rfl⟩

/-- C2: the code at the failing input.  Called without `max_events`, the
default `-1` makes the loop guard `evt_cnt >= max_events` true at once
(`0 ≥ -1`), so `analyse_events` processes no events at all and returns 0,
while the same call with an explicit cap of 1 processes the event and
returns 1.  The claim says the default processes the full stream. -/
theorem C2_default_processes_no_events :
    analyse_events [ev250] get_histograms = (0, get_histograms)
    ∧ (analyse_events [ev250] get_histograms 1).1 = 1 := by
  constructor
  · simp only [analyse_events, analyse_loop]
    rw [if_pos (by norm_num : (0 : ℤ) ≥ -1)]
    rfl
  · simp only [analyse_events, analyse_loop]
    rw [if_neg (by norm_num : ¬ (0 : ℤ) ≥ 1)]
    exact stepEvent_passes 0 (resetAll get_histograms) ev250
      (by rw [eff_met_ev250]; norm_num [met_thresh])

/-- C3: for every event whose effective MET is strictly below `met_thresh`,
the step neither increments the passed count nor fills any jet-kinematic
histogram — the state changes only by the "total" cutflow entry and the
`met_et` entry. -/
theorem C3_below_threshold (p : ℕ) (s : Histos) (ev : Event)
    (h : eff_met ev < met_thresh) :
    stepEvent (p, s) ev
      = (p, { s with cutflow := s.cutflow ++ ["total"],
                     met_et := s.met_et ++ [eff_met ev] }) :=
  stepEvent_below p s ev h

/-- Witness for C3 at the cancellation event. -/
theorem C3_below_threshold_witness :
    eff_met cancelEv < met_thresh
    ∧ stepEvent (0, get_histograms) cancelEv
      = (0, { get_histograms with
              cutflow := get_histograms.cutflow ++ ["total"],
              met_et := get_histograms.met_et ++ [eff_met cancelEv] }) := by
  have h : eff_met cancelEv < met_thresh := by
    rw [eff_met_cancelEv]; norm_num [met_thresh]
  exact ⟨h, C3_below_threshold 0 get_histograms cancelEv h⟩

/-- C4: the Final Results significance expression equals
`signal·L / sqrt(background·L)` whenever `background·L > 0`, and raises an
exception (`ValueError` from `math.sqrt`, or `ZeroDivisionError` from the
float division) whenever `background·L ≤ 0` — it never silently returns a
number there. -/
theorem C4_significance (signal background lumi_factor : ℝ) :
    (background * lumi_factor ≤ 0 →
      ∃ e, significance signal background lumi_factor = .error e)
    ∧ (0 < background * lumi_factor →
      significance signal background lumi_factor
        = .ok (signal * lumi_factor / Real.sqrt (background * lumi_factor))) := by
  constructor
  · intro h
    rcases lt_or_eq_of_le h with hlt | heq
    · have h1 : pysqrt (background * lumi_factor) = .error "ValueError" := by
        simp [pysqrt, hlt]
      exact ⟨"ValueError", by simp [significance, h1]⟩
    · have h1 : pysqrt (background * lumi_factor) = .ok 0 := by
        simp [pysqrt, heq]
      exact ⟨"ZeroDivisionError", by simp [significance, h1, pydiv]⟩
  · intro h
    have hnl : ¬ background * lumi_factor < 0 := not_lt.mpr h.le
    have hs : Real.sqrt (background * lumi_factor) ≠ 0 :=
      ne_of_gt (Real.sqrt_pos.mpr h)
    have h1 : pysqrt (background * lumi_factor)
        = .ok (Real.sqrt (background * lumi_factor)) := by
      simp [pysqrt, hnl]
    simp [significance, h1, pydiv, hs]

/-- Witness for C4: error branch at `background = 0` and ok branch at the
spec's worked example `signal = 10`, `background = 600`, `L = 30`. -/
theorem C4_significance_witness :
    ((0 : ℝ) * 30 ≤ 0 ∧ ∃ e, significance 10 0 30 = .error e)
    ∧ ((0 : ℝ) < 600 * 30
        ∧ significance 10 600 30 = .ok (10 * 30 / Real.sqrt (600 * 30))) :=
  ⟨⟨by norm_num, (C4_significance 10 0 30).1 (by norm_num)⟩,
   ⟨by norm_num, (C4_significance 10 600 30).2 (by norm_num)⟩⟩

/-- C5: `reduction` is `background / 51336`; the verdict is affordable iff
`reduction ≤ 0.14`; at the boundary value the verdict is affordable, and for
any strictly larger background it is not. -/
theorem C5_rate_reduction :
    (∀ b : ℝ, reduction b = b / 51336)
    ∧ (∀ b : ℝ, affordable b ↔ reduction b ≤ 0.14)
    ∧ affordable (0.14 * 51336)
    ∧ (∀ b : ℝ, 0.14 * 51336 < b → ¬ affordable b) := by
  refine ⟨fun b => rfl, fun b => not_lt, ?_, ?_⟩
  · show ¬ (reduction (0.14 * 51336) > 0.14)
    unfold reduction
    norm_num
  · intro b hb hA
    exact hA (by
      show reduction b > 0.14
      unfold reduction
      rw [gt_iff_lt, lt_div_iff₀ (by norm_num : (0 : ℝ) < 51336)]
      exact hb)

/-- Witness for C5 just above the boundary: `0.14 · 51336 = 7187.04 < 7188`,
so a background yield of 7188 is not affordable. -/
theorem C5_rate_reduction_witness :
    (0.14 * 51336 < (7188 : ℝ)) ∧ ¬ affordable 7188 :=
  ⟨by norm_num, C5_rate_reduction.2.2.2 7188 (by norm_num)⟩

/-- C6: `analyse_events` with `max_events = 0` returns passed-count 0 and
every histogram in its post-reset empty state. -/
theorem C6_max_events_zero (tree : List Event) (hist_list : Histos) :
    analyse_events tree hist_list 0 = (0, get_histograms) := by
  cases tree with
  | nil => rfl
  | cons e rest =>
      simp only [analyse_events, analyse_loop]
      rw [if_pos (le_refl (0 : ℤ))]
      rfl

/-- C7: running `analyse_events` again on the histogram set produced by a
first run, with the same stream and cap, yields exactly the same passed count
and histogram contents: the initial reset erases all prior state. -/
theorem C7_reset_idempotent (tree : List Event) (hist_list : Histos)
    (max_events : ℤ) :
    analyse_events tree (analyse_events tree hist_list max_events).2 max_events
      = analyse_events tree hist_list max_events := rfl

/-- C8: for every event with effective MET at or above `met_thresh` and fewer
than two jets, the step increments the passed count, fills the "total" and
"200GeVMET" cutflow buckets, the `met_et` histogram and the `jet_n`
histogram, and leaves every other histogram unchanged. -/
theorem C8_pass_few_jets (p : ℕ) (s : Histos) (ev : Event)
    (hmet : met_thresh ≤ eff_met ev) (hjet : ev.jet_n < 2) :
    stepEvent (p, s) ev
      = (p + 1, { s with cutflow := s.cutflow ++ ["total"] ++ ["200GeVMET"],
                         met_et := s.met_et ++ [eff_met ev],
                         jet_n := s.jet_n ++ [ev.jet_n] }) :=
  stepEvent_pass_lt2 p s ev hmet hjet

/-- Witness for C8 at the zero-jet event `ev250` (effective MET 250 GeV). -/
theorem C8_pass_few_jets_witness :
    met_thresh ≤ eff_met ev250 ∧ ev250.jet_n < 2
    ∧ stepEvent (0, get_histograms) ev250
      = (0 + 1, { get_histograms with
                  cutflow := get_histograms.cutflow ++ ["total"] ++ ["200GeVMET"],
                  met_et := get_histograms.met_et ++ [eff_met ev250],
                  jet_n := get_histograms.jet_n ++ [ev250.jet_n] }) := by
  have hmet : met_thresh ≤ eff_met ev250 := by
    rw [eff_met_ev250]; norm_num [met_thresh]
  exact ⟨hmet, by norm_num [ev250],
    C8_pass_few_jets 0 get_histograms ev250 hmet (by norm_num [ev250])⟩

/-- C9: the histograms `jet_dphi`, `jet_deta` and `dijet_m` exist in the
accumulator set but are never filled by `analyse_events`: after any pass over
any stream with any cap they are empty. -/
theorem C9_never_filled (tree : List Event) (hist_list : Histos)
    (max_events : ℤ) :
    (analyse_events tree hist_list max_events).2.jet_dphi = []
    ∧ (analyse_events tree hist_list max_events).2.jet_deta = []
    ∧ (analyse_events tree hist_list max_events).2.dijet_m = [] :=
  analyse_loop_unfilled max_events tree 0 (0, resetAll hist_list)

/-- C10: the MET threshold inside `analyse_events` is the fixed value 200
(the function's only parameters are the tree, the histogram set and the event
cap — none changes it), and every processed event whose effective MET is at
least `met_thresh` increments the passed count, whatever its jet count. -/
theorem C10_fixed_threshold :
    met_thresh = 200
    ∧ ∀ (p : ℕ) (s : Histos) (ev : Event),
        met_thresh ≤ eff_met ev → (stepEvent (p, s) ev).1 = p + 1 :=
  ⟨rfl, fun p s ev h => stepEvent_passes p s ev h⟩

/-- Witness for C10 at `ev250` with a nonzero running passed count. -/
theorem C10_fixed_threshold_witness :
    met_thresh ≤ eff_met ev250
    ∧ (stepEvent (3, get_histograms) ev250).1 = 3 + 1 := by
  have hmet : met_thresh ≤ eff_met ev250 := by
    rw [eff_met_ev250]; norm_num [met_thresh]
  exact ⟨hmet, C10_fixed_threshold.2 3 get_histograms ev250 hmet⟩

end
